import Mathlib

/-! # VideoViewer (tools/VideoViewer/main.cpp)

A shallow embedding of the viewer's control loop and key callbacks, followed by
theorems about them.  The viewer state is an explicit record; every call into
the Pangolin library that the theorems talk about is appended to a call log.
C++ `int` values are `Int`s, arithmetic on them goes through `wrapInt`.
The key callbacks are those registered under `CALLEE_HAS_CPP11`.
-/

namespace Pangolin

/-! ## Machine integers -/

/-- The value `std::numeric_limits<int>::max()` for a 32-bit `int`. -/
def INT_MAX : Int := 2147483647

/-- The value `std::numeric_limits<int>::min()` for a 32-bit `int`. -/
def INT_MIN : Int := -2147483648

/-- Two's-complement reduction of an integer result to 32 bits. -/
def wrapInt (x : Int) : Int := (x + 2147483648) % 4294967296 - 2147483648

/-- The integer is representable as a 32-bit `int`. -/
def isInt (x : Int) : Prop := INT_MIN ≤ x ∧ x ≤ INT_MAX

instance (x : Int) : Decidable (isInt x) := by
  unfold isInt; exact inferInstance

/-! ## Floating-point values

Only classification, `std::abs` and comparison are used by the viewer, and all
three are exact on IEEE values, so a float is modelled by its value. -/

/-- The value of a `float`: not-a-number, an infinity, or a finite number. -/
inductive FloatVal where
  | nan
  | inf (negative : Bool)
  | fin (q : ℚ)
  deriving DecidableEq

namespace FloatVal

/-- The function `std::isfinite`. -/
def isfinite : FloatVal → Bool
  | fin _ => true
  | _ => false

/-- The function `std::abs` on a float. -/
def abs : FloatVal → FloatVal
  | nan => nan
  | inf _ => inf false
  | fin q => fin |q|

/-- The comparison `a >= b` on floats; false when either side is not-a-number. -/
def ge : FloatVal → FloatVal → Bool
  | nan, _ => false
  | _, nan => false
  | inf false, _ => true
  | inf true, inf true => true
  | inf true, _ => false
  | fin _, inf true => true
  | fin _, inf false => false
  | fin a, fin b => decide (b ≤ a)

/-- The comparison `a < b` on floats; false when either side is not-a-number. -/
def lt : FloatVal → FloatVal → Bool
  | nan, _ => false
  | _, nan => false
  | _, inf true => false
  | inf true, _ => true
  | inf false, _ => false
  | fin _, inf false => true
  | fin a, fin b => decide (a < b)

end FloatVal

/-! ## Library types -/

/-- A `pangolin::XYRangef`: a rectangle with float bounds. -/
structure XYRangef where
  xmin : FloatVal
  xmax : FloatVal
  ymin : FloatVal
  ymax : FloatVal
  deriving DecidableEq

/-- A `pangolin::Image<unsigned char>`: data pointer (0 is null) and size. -/
structure Image where
  ptr : Nat
  w : Nat
  h : Nat
  deriving DecidableEq

/-- A `pangolin::GlPixFormat`, kept abstract. -/
abbrev GlPixFormat := Nat

/-- A `pangolin::StreamInfo`. -/
structure StreamInfo where
  Width : Nat
  Height : Nat
  PixFormat : GlPixFormat
  deriving DecidableEq

/-- A `pangolin::ImageViewHandler`, reduced to the two rectangles the viewer reads. -/
structure ImageViewHandler where
  GetSelection : XYRangef
  GetViewToRender : XYRangef
  deriving DecidableEq

/-- A child `pangolin::View` of the container, reduced to the flags the viewer reads. -/
structure View where
  IsShown : Bool
  HasFocus : Bool
  deriving DecidableEq

/-- The entry type of `gloffsetscale`: `std::pair<float,float>`. -/
abbrev OffsetScale := FloatVal × FloatVal

/-- The state behind a `pangolin::VideoPlaybackInterface*`. -/
structure VideoPlaybackInterface where
  GetCurrentFrameId : Int
  GetTotalFrames : Int
  deriving DecidableEq

/-- Modelled from the spec: `VideoPlaybackInterface::Seek` is library code; a
random-access source "seeks to frame index", so `Seek n` makes `n` the current
frame index and leaves the total frame count alone. -/
def VideoPlaybackInterface.Seek (vp : VideoPlaybackInterface) (n : Int) :
    VideoPlaybackInterface :=
  { vp with GetCurrentFrameId := n }

/-- Library functions whose results the viewer only passes along. -/
structure Lib where
  /-- The method `XYRangef::Area()`. -/
  Area : XYRangef → FloatVal
  /-- The function `pangolin::GetOffsetScale(img, froi.Cast<int>(), fmt)`. -/
  GetOffsetScale : Image → XYRangef → GlPixFormat → OffsetScale
  /-- The constructor `pangolin::ImageViewHandler(w, h)`. -/
  ImageViewHandler : Nat → Nat → ImageViewHandler
  /-- The flags of a view fresh from `pangolin::CreateDisplay()`. -/
  CreateDisplay : View

/-- What `pangolin::VideoRecordRepeat video(input_uri, output_uri)` exposes once open. -/
structure Source where
  Streams : List StreamInfo
  Width : Nat
  Height : Nat
  IsRecording : Bool
  /-- The result of `video.Cast<pangolin::VideoPlaybackInterface>()`. -/
  Cast : Option VideoPlaybackInterface

/-- Calls into the library that are recorded in the call log. -/
inductive Call where
  | Open (input_uri output_uri : String)
  | PrintError (msg : String)
  | CreateWindowAndBind (title : String) (w h : Nat)
  | Grab
  | Render (i : Nat)
  | FinishFrame
  | Record
  | Stop
  | Play
  | Source
  | Seek (frame : Int)
  | ToggleShow (v : Nat)
  | SaveImage (v : Nat)
  deriving DecidableEq

/-! ## Viewer state -/

/-- The local variables of `VideoViewer` that the callbacks capture, and the call log. -/
structure Viewer where
  frame : Int
  end_frame : Int
  num_streams : Nat
  video_playback : Option VideoPlaybackInterface
  IsRecording : Bool
  images : List Image
  glfmt : List GlPixFormat
  gloffsetscale : List OffsetScale
  handlers : List ImageViewHandler
  container : List View
  calls : List Call

/-- The constant `FRAME_SKIP`. -/
def FRAME_SKIP : Int := 30

/-- The array `show_hide_keys`. -/
def show_hide_keys : List Char := ['1', '2', '3', '4', '5', '6', '7', '8', '9']

/-- The array `screenshot_keys`. -/
def screenshot_keys : List Char :=
  ['!', Char.ofNat 34, Char.ofNat 35, '$', '%', '^', '&', '*', Char.ofNat 40]

/-- Append one call to the log. -/
def Viewer.log (s : Viewer) (c : Call) : Viewer :=
  { s with calls := s.calls ++ [c] }

/-! ## Key callbacks -/

/-- Modelled from the spec: `View::ToggleShow` is library code; the digit keys
"toggle visibility" of a stream's view, so it negates the view's shown flag. -/
def View.ToggleShow (d : View) : View :=
  { d with IsShown := !d.IsShown }

/-- Callback of `show_hide_keys[v]`: `container[v].ToggleShow()`. -/
def key_show (v : Nat) (s : Viewer) : Viewer :=
  match s.container[v]? with
  | some d =>
    { s with container := s.container.set v d.ToggleShow,
             calls := s.calls ++ [Call.ToggleShow v] }
  | none => s

/-- Callback of `screenshot_keys[v]`: save `images[v]` when it exists and has data. -/
def key_screenshot (v : Nat) (s : Viewer) : Viewer :=
  match s.images[v]? with
  | some img => if img.ptr ≠ 0 then s.log (Call.SaveImage v) else s
  | none => s

/-- Modelled from the spec: `VideoRecordRepeat::Record` is library code; it
"starts sink recording", after which `IsRecording()` holds. -/
def Viewer.Record (s : Viewer) : Viewer :=
  { s with IsRecording := true, calls := s.calls ++ [Call.Record] }

/-- Modelled from the spec: `VideoRecordRepeat::Stop` is library code; it
stops sink recording, after which `IsRecording()` no longer holds. -/
def Viewer.Stop (s : Viewer) : Viewer :=
  { s with IsRecording := false, calls := s.calls ++ [Call.Stop] }

/-- Callback of key `r`. -/
def key_r (s : Viewer) : Viewer :=
  if !s.IsRecording then s.Record else s.Stop

/-- Callback of key `p`. -/
def key_p (s : Viewer) : Viewer :=
  { s with end_frame := INT_MAX, calls := s.calls ++ [Call.Play] }

/-- Callback of key `s`. -/
def key_s (s : Viewer) : Viewer :=
  { s with end_frame := INT_MAX, calls := s.calls ++ [Call.Source] }

/-- Callback of the space key. -/
def key_space (s : Viewer) : Viewer :=
  { s with end_frame := if s.frame < s.end_frame then s.frame else INT_MAX }

/-- The frame index the `,` callback computes from the playback interface. -/
def comma_frame (vp : VideoPlaybackInterface) : Int :=
  min (wrapInt (vp.GetCurrentFrameId - FRAME_SKIP)) (wrapInt (vp.GetTotalFrames - 1))

/-- Callback of key `,`. -/
def key_comma (s : Viewer) : Viewer :=
  match s.video_playback with
  | some vp =>
    { s with video_playback := some (vp.Seek (comma_frame vp)),
             calls := s.calls ++ [Call.Seek (comma_frame vp)] }
  | none => s

/-- The frame index the `.` callback computes from the playback interface. -/
def dot_frame (vp : VideoPlaybackInterface) : Int :=
  max (wrapInt (vp.GetCurrentFrameId + FRAME_SKIP)) 0

/-- Callback of key `.`. -/
def key_dot (s : Viewer) : Viewer :=
  match s.video_playback with
  | some vp =>
    { s with video_playback := some (vp.Seek (dot_frame vp)),
             calls := s.calls ++ [Call.Seek (dot_frame vp)] }
  | none => { s with end_frame := wrapInt (s.frame + 1) }

/-- The test `have_selection` of the `a` and `g` callbacks. -/
def have_selection (lib : Lib) (ivh : ImageViewHandler) : Bool :=
  (lib.Area ivh.GetSelection).isfinite &&
    (lib.Area ivh.GetSelection).abs.ge (FloatVal.fin 4)

/-- The rectangle `froi` of the `a` and `g` callbacks. -/
def froi (lib : Lib) (ivh : ImageViewHandler) : XYRangef :=
  if have_selection lib ivh then ivh.GetSelection else ivh.GetViewToRender

/-- The test `container[i].HasFocus()`. -/
def HasFocus (s : Viewer) (i : Nat) : Bool :=
  match s.container[i]? with
  | some d => d.HasFocus
  | none => false

/-- The test `container[i].IsShown()`. -/
def IsShown (s : Viewer) (i : Nat) : Bool :=
  match s.container[i]? with
  | some d => d.IsShown
  | none => false

/-- The windowing of stream `i`: `GetOffsetScale(images[i], froi, glfmt[i])`. -/
def offsetScaleOf (lib : Lib) (s : Viewer) (i : Nat) : Option OffsetScale :=
  match s.images[i]?, s.handlers[i]?, s.glfmt[i]? with
  | some img, some ivh, some fmt => some (lib.GetOffsetScale img (froi lib ivh) fmt)
  | _, _, _ => none

/-- Body of the loop of the `a` callback, for stream `i`. -/
def key_a_body (lib : Lib) (s : Viewer) (i : Nat) : Viewer :=
  if HasFocus s i then
    match offsetScaleOf lib s i with
    | some os => { s with gloffsetscale := s.gloffsetscale.set i os }
    | none => s
  else s

/-- Callback of key `a`. -/
def key_a (lib : Lib) (s : Viewer) : Viewer :=
  (List.range s.images.length).foldl (key_a_body lib) s

/-- The first loop of the `g` callback from index `i` on: the value of `os_default`
when the loop ends, starting from the value `os`. -/
def os_default_from (lib : Lib) (s : Viewer) (os : OffsetScale) : List Nat → OffsetScale
  | [] => os
  | i :: rest =>
    if HasFocus s i then
      match offsetScaleOf lib s i with
      | some v => v
      | none => os
    else os_default_from lib s os rest

/-- The value of `os_default` after the first loop of the `g` callback. -/
def os_default (lib : Lib) (s : Viewer) : OffsetScale :=
  os_default_from lib s (FloatVal.fin 0, FloatVal.fin 1) (List.range s.images.length)

/-- Callback of key `g`. -/
def key_g (lib : Lib) (s : Viewer) : Viewer :=
  (List.range s.images.length).foldl
    (fun t i => { t with gloffsetscale := t.gloffsetscale.set i (os_default lib s) }) s

/-! ## Events and the render loop -/

/-- What the window system delivers while `pangolin::FinishFrame()` polls events:
a key press, or mouse input that moves the focus or changes a view's handler. -/
inductive Event where
  | key (c : Char)
  | focus (i : Nat) (b : Bool)
  | handler (i : Nat) (ivh : ImageViewHandler)

/-- Dispatch of a key press to the callback registered for it; the digit and
screenshot keys are registered for `v < container.NumChildren() && v < 9`. -/
def keyPress (lib : Lib) (c : Char) (s : Viewer) : Viewer :=
  if show_hide_keys.indexOf c < 9 ∧ show_hide_keys.indexOf c < s.container.length then
    key_show (show_hide_keys.indexOf c) s
  else if screenshot_keys.indexOf c < 9 ∧ screenshot_keys.indexOf c < s.container.length then
    key_screenshot (screenshot_keys.indexOf c) s
  else if c = 'r' then key_r s
  else if c = 'p' then key_p s
  else if c = 's' then key_s s
  else if c = ' ' then key_space s
  else if c = ',' then key_comma s
  else if c = '.' then key_dot s
  else if c = 'a' then key_a lib s
  else if c = 'g' then key_g lib s
  else s

/-- Mouse input gives or takes the focus of view `i`. -/
def setFocus (i : Nat) (b : Bool) (s : Viewer) : Viewer :=
  match s.container[i]? with
  | some d => { s with container := s.container.set i { d with HasFocus := b } }
  | none => s

/-- Mouse input changes the selection or visible region of view `i`. -/
def setHandler (i : Nat) (ivh : ImageViewHandler) (s : Viewer) : Viewer :=
  { s with handlers := s.handlers.set i ivh }

/-- Effect of one event on the viewer state. -/
def handle (lib : Lib) (s : Viewer) : Event → Viewer
  | Event.key c => keyPress lib c s
  | Event.focus i b => setFocus i b s
  | Event.handler i ivh => setHandler i ivh s

/-- The result of a successful `video.Grab`: the sub-image of each stream and the
frame index the source is at afterwards. -/
structure FrameSet where
  StreamImage : Nat → Image
  position : Int

/-- Modelled from the spec: `VideoRecordRepeat::Grab` is library code.  A pull
delivers one frame-set, "one synchronized capture across all streams", so a
successful `Grab` leaves one image per stream in `images`; a failed one leaves
`images` as it was. -/
def Grab (fs : FrameSet) (s : Viewer) : Viewer :=
  { s with images := (List.range s.num_streams).map fs.StreamImage,
           video_playback := s.video_playback.map
             (fun vp => { vp with GetCurrentFrameId := fs.position }) }

/-- Lines 176-180: the frame pull of one loop iteration; `g` is `none` when
`video.Grab` returns false. -/
def grabStep (g : Option FrameSet) (s : Viewer) : Viewer :=
  if s.frame = 0 ∨ s.frame < s.end_frame then
    match g with
    | some fs => { Grab fs (s.log Call.Grab) with frame := wrapInt (s.frame + 1) }
    | none => s.log Call.Grab
  else s

/-- The indices the render step draws: `i < images.size()` with `container[i].IsShown()`. -/
def rendered (s : Viewer) : List Nat :=
  (List.range s.images.length).filter (IsShown s)

/-- Lines 185-208: the render step of one loop iteration. -/
def renderStep (s : Viewer) : Viewer :=
  { s with calls := s.calls ++ (rendered s).map Call.Render }

/-- One pass through the `while` body, and the events polled by `FinishFrame`. -/
structure Tick where
  grab : Option FrameSet
  events : List Event

/-- One iteration of the `while` loop. -/
def iteration (lib : Lib) (s : Viewer) (t : Tick) : Viewer :=
  t.events.foldl (handle lib) ((renderStep (grabStep t.grab s)).log Call.FinishFrame)

/-- The `while(!pangolin::ShouldQuit())` loop: one iteration per tick, quit after the last. -/
def renderLoop (lib : Lib) (ticks : List Tick) (s : Viewer) : Viewer :=
  ticks.foldl (iteration lib) s

/-- Lines 10-16 of `VideoViewer`: the state once the source is open. -/
def opened (src : Source) (input_uri output_uri : String) : Viewer :=
  { frame := 0, end_frame := INT_MAX, num_streams := src.Streams.length,
    video_playback := none, IsRecording := src.IsRecording, images := [],
    glfmt := [], gloffsetscale := [], handlers := [], container := [],
    calls := [Call.Open input_uri output_uri] }

/-- Lines 23-63 of `VideoViewer`: playback probe, window and per-stream view setup. -/
def startup (lib : Lib) (src : Source) (input_uri output_uri : String) : Viewer :=
  let s := opened src input_uri output_uri
  { s with
    video_playback := src.Cast,
    end_frame :=
      match src.Cast with
      | some vp => if vp.GetTotalFrames < INT_MAX then 1 else INT_MAX
      | none => INT_MAX,
    glfmt := src.Streams.map (fun si => si.PixFormat),
    gloffsetscale := src.Streams.map (fun _ => (FloatVal.fin 0, FloatVal.fin 1)),
    handlers := src.Streams.map (fun si => lib.ImageViewHandler si.Width si.Height),
    container := src.Streams.map (fun _ => lib.CreateDisplay),
    calls := s.calls ++
      [Call.CreateWindowAndBind "VideoViewer" (src.Width * s.num_streams) src.Height] }

/-- The function `VideoViewer`, for a source that opened as `src` and a run of the
window system given by `ticks`; the result is the final state with its call log. -/
def VideoViewer (lib : Lib) (src : Source) (input_uri output_uri : String)
    (ticks : List Tick) : Viewer :=
  if (opened src input_uri output_uri).num_streams = 0 then
    (opened src input_uri output_uri).log (Call.PrintError "No video streams from device.\n")
  else
    renderLoop lib ticks (startup lib src input_uri output_uri)

/-- A state the callbacks can run in: one the render loop reaches from startup. -/
def Reachable (lib : Lib) (src : Source) (s : Viewer) : Prop :=
  ∃ (input_uri output_uri : String) (ticks : List Tick),
    renderLoop lib ticks (startup lib src input_uri output_uri) = s

/-- The constant `dflt_output_uri`. -/
def dflt_output_uri : String := "pango://video.pango"

/-! ## Sample inputs -/

/-- A library instance for concrete runs: the area of a finite rectangle is the
exact product of its side lengths. -/
def sampleLib : Lib where
  Area := fun r =>
    match r with
    | ⟨FloatVal.fin a, FloatVal.fin b, FloatVal.fin c, FloatVal.fin d⟩ =>
      FloatVal.fin ((b - a) * (d - c))
    | _ => FloatVal.nan
  GetOffsetScale := fun img _ fmt => (FloatVal.fin img.ptr, FloatVal.fin (fmt + 2))
  ImageViewHandler := fun w h =>
    ⟨⟨FloatVal.fin 0, FloatVal.fin 0, FloatVal.fin 0, FloatVal.fin 0⟩,
     ⟨FloatVal.fin 0, FloatVal.fin w, FloatVal.fin 0, FloatVal.fin h⟩⟩
  CreateDisplay := ⟨true, false⟩

/-- A source with `n` streams of size 640x480 and the given playback interface. -/
def sampleSource (n : Nat) (vp : Option VideoPlaybackInterface) : Source where
  Streams := List.replicate n ⟨640, 480, 7⟩
  Width := 640
  Height := 480
  IsRecording := false
  Cast := vp

/-- The viewer state right after startup on `sampleSource n vp`. -/
def sampleViewer (n : Nat) (vp : Option VideoPlaybackInterface) : Viewer :=
  startup sampleLib (sampleSource n vp) "test://" dflt_output_uri

/-- A frame-set whose stream `i` has its data at address `i + 1`. -/
def sampleFrameSet : FrameSet where
  StreamImage := fun i => ⟨i + 1, 640, 480⟩
  position := 0

/-- A handler whose selection was dragged from right to left: its area is
`(0 - 5) * (2 - 0) = -10`; the visible region is the whole 640x480 image. -/
def sampleDragged : ImageViewHandler where
  GetSelection := ⟨FloatVal.fin 5, FloatVal.fin 0, FloatVal.fin 0, FloatVal.fin 2⟩
  GetViewToRender := ⟨FloatVal.fin 0, FloatVal.fin 640, FloatVal.fin 0, FloatVal.fin 480⟩

/-- A run on a two-stream source: one frame is pulled, then view 1 gets the
focus and `a` is pressed. -/
def sampleRun : Viewer :=
  renderLoop sampleLib [⟨some sampleFrameSet, [Event.focus 1 true, Event.key 'a']⟩]
    (startup sampleLib (sampleSource 2 none) "test://" dflt_output_uri)

/-- The sample library with a windowing that depends on the region of interest:
offset and scale are the region's horizontal bounds. -/
def sampleLibRoi : Lib :=
  { sampleLib with GetOffsetScale := fun _ r _ => (r.xmin, r.xmax) }

/-- A run on a two-stream source: one frame is pulled, then the selection of
view 1 is dragged from right to left and view 1 gets the focus. -/
def sampleDraggedRun : Viewer :=
  renderLoop sampleLibRoi
    [⟨some sampleFrameSet, [Event.handler 1 sampleDragged, Event.focus 1 true]⟩]
    (startup sampleLibRoi (sampleSource 2 none) "test://" dflt_output_uri)

/-! ## The function `main` -/

/-- How a call of `VideoViewer` ends for `main`: it returns, or it throws a
`pangolin::VideoException`. -/
inductive Outcome where
  | returned
  | threw
  deriving DecidableEq

/-- The array `input_uris`.  The last initializer is two adjacent string literals,
which C++ concatenates into one string. -/
def input_uris : Array String := #[
  "dc1394:[fps=30,dma=10,size=640x480,iso=400]//0",
  "convert:[fmt=RGB24]//v4l:///dev/video0",
  "convert:[fmt=RGB24]//v4l:///dev/video1",
  "openni:[img1=rgb]//",
  "test:[size=160x120,n=1,fmt=RGB24]//" ++
  ""
]

/-- How a run of `main` ends. -/
inductive MainResult where
  /-- The statement `return code`. -/
  | exit (code : Int)
  /-- A read of `input_uris[index]` past the end of the array. -/
  | outOfBounds (index : Nat)
  /-- The model's iteration budget ran out. -/
  | outOfFuel
  deriving DecidableEq

/-- A run of `main`: the URIs handed to `VideoViewer`, in order, and how it ended. -/
structure MainRun where
  tried : List String
  result : MainResult
  deriving DecidableEq

/-- The loop `for(int i=0; !input_uris[i].empty(); ++i)` from index `i` on. -/
def tryDefaults (attempt : String → String → Outcome) :
    Nat → Nat → List String → MainRun
  | 0, _, tried => ⟨tried, MainResult.outOfFuel⟩
  | fuel + 1, i, tried =>
    match input_uris[i]? with
    | none => ⟨tried, MainResult.outOfBounds i⟩
    | some uri =>
      if uri.isEmpty then ⟨tried, MainResult.exit 0⟩
      else
        match attempt uri dflt_output_uri with
        | Outcome.returned => ⟨tried ++ [uri], MainResult.exit 0⟩
        | Outcome.threw => tryDefaults attempt fuel (i + 1) (tried ++ [uri])

/-- The function `main`; `argv` includes the program name, `attempt` is how
`VideoViewer` ends for given input and output URI. -/
def main (argv : List String) (attempt : String → String → Outcome) : MainRun :=
  match argv with
  | _ :: input_uri :: rest =>
    let output_uri := match rest with
      | o :: _ => o
      | [] => dflt_output_uri
    match attempt input_uri output_uri with
    | Outcome.returned => ⟨[input_uri], MainResult.exit 0⟩
    | Outcome.threw => ⟨[input_uri], MainResult.exit 0⟩
  | _ => tryDefaults attempt (input_uris.size + 1) 0 []

end Pangolin

namespace Pangolin

/-! ## Machine-integer facts -/

theorem wrapInt_of_isInt {x : Int} (h : isInt x) : wrapInt x = x := by
  unfold isInt INT_MIN INT_MAX at h
  unfold wrapInt
  omega

/-- For a valid position in a source of `T ≥ 1` frames, the `,` callback computes
exactly `c - 30`: the bound `T - 1` never binds. -/
theorem comma_frame_eq (c T : Int) (hT : 1 ≤ T) (hT2 : T ≤ INT_MAX) (hc0 : 0 ≤ c)
    (hc1 : c ≤ T - 1) : comma_frame ⟨c, T⟩ = c - 30 := by
  unfold INT_MAX at hT2
  have h1 : wrapInt (c - FRAME_SKIP) = c - 30 := by unfold wrapInt FRAME_SKIP; omega
  have h2 : wrapInt (T - 1) = T - 1 := by unfold wrapInt; omega
  show min (wrapInt (c - FRAME_SKIP)) (wrapInt (T - 1)) = c - 30
  rw [h1, h2]
  exact min_eq_left (by omega)

/-! ## Folds over the stream indices -/

theorem foldl_invariant {α β : Type} (f : α → β → α) (P : α → Prop)
    (hstep : ∀ a b, P a → P (f a b)) (l : List β) (a : α) (ha : P a) :
    P (l.foldl f a) := by
  induction l generalizing a with
  | nil => exact ha
  | cons b l ih => exact ih (f a b) (hstep a b ha)

theorem foldl_set_length {α : Type} (v : α) (l : List Nat) (g : List α) :
    (l.foldl (fun g i => g.set i v) g).length = g.length :=
  foldl_invariant (fun g i => g.set i v) (fun t => t.length = g.length)
    (fun a b ha => by simpa using ha) l g rfl

/-- Assigning `v` to the indices `0 .. n-1` of a list with at least `n` entries
leaves `v` at each of them. -/
theorem foldl_set_range {α : Type} (v : α) (n : Nat) (g : List α) (hn : n ≤ g.length)
    (j : Nat) (hj : j < n) :
    ((List.range n).foldl (fun g i => g.set i v) g)[j]? = some v := by
  induction n with
  | zero => omega
  | succ n ih =>
    rw [List.range_succ, List.foldl_append]
    simp only [List.foldl_cons, List.foldl_nil]
    by_cases hjn : n = j
    · subst hjn
      rw [List.getElem?_set]
      simp only [if_true]
      rw [foldl_set_length]
      simp only [Nat.lt_of_succ_le hn, if_true]
    · rw [List.getElem?_set_ne hjn]
      exact ih (by omega) (by omega)

/-- The fields that decide frame acquisition and key dispatch. -/
def core (s : Viewer) :
    Int × Int × Option VideoPlaybackInterface × List Image × Nat × Nat :=
  (s.frame, s.end_frame, s.video_playback, s.images, s.num_streams, s.container.length)

theorem key_a_body_core (lib : Lib) (s : Viewer) (i : Nat) :
    core (key_a_body lib s i) = core s := by
  unfold key_a_body
  split
  · split <;> rfl
  · rfl

theorem key_a_core (lib : Lib) (s : Viewer) : core (key_a lib s) = core s :=
  foldl_invariant (key_a_body lib) (fun t => core t = core s)
    (fun a b ha => (key_a_body_core lib a b).trans ha) _ s rfl

theorem key_a_body_length (lib : Lib) (s : Viewer) (i : Nat) :
    (key_a_body lib s i).gloffsetscale.length = s.gloffsetscale.length := by
  unfold key_a_body
  split
  · split
    · simp
    · rfl
  · rfl

theorem key_a_length (lib : Lib) (s : Viewer) :
    (key_a lib s).gloffsetscale.length = s.gloffsetscale.length :=
  foldl_invariant (key_a_body lib)
    (fun t => t.gloffsetscale.length = s.gloffsetscale.length)
    (fun a b ha => (key_a_body_length lib a b).trans ha) _ s rfl

theorem key_g_core (lib : Lib) (s : Viewer) : core (key_g lib s) = core s := by
  unfold key_g
  refine foldl_invariant _ (fun t => core t = core s) ?_ _ s rfl
  intro a b ha
  exact ha

theorem key_g_gloffsetscale (lib : Lib) (s : Viewer) :
    (key_g lib s).gloffsetscale =
      (List.range s.images.length).foldl (fun g i => g.set i (os_default lib s))
        s.gloffsetscale := by
  unfold key_g
  generalize List.range s.images.length = l
  generalize os_default lib s = v
  induction l generalizing s with
  | nil => rfl
  | cons i l ih => simp only [List.foldl_cons]; rw [ih]

theorem key_show_core (v : Nat) (s : Viewer) : core (key_show v s) = core s := by
  unfold key_show
  split
  · simp [core]
  · rfl

theorem key_screenshot_core (v : Nat) (s : Viewer) : core (key_screenshot v s) = core s := by
  unfold key_screenshot
  split
  · split <;> rfl
  · rfl

theorem key_r_core (s : Viewer) : core (key_r s) = core s := by
  unfold key_r
  split <;> rfl

theorem key_p_core (s t : Viewer) (h : core s = core t) : core (key_p s) = core (key_p t) := by
  simp only [core, Prod.mk.injEq] at h
  obtain ⟨h1, -, h3, h4, h5, h6⟩ := h
  simp [core, key_p, h1, h3, h4, h5, h6]

theorem key_s_core (s t : Viewer) (h : core s = core t) : core (key_s s) = core (key_s t) := by
  simp only [core, Prod.mk.injEq] at h
  obtain ⟨h1, -, h3, h4, h5, h6⟩ := h
  simp [core, key_s, h1, h3, h4, h5, h6]

theorem key_space_core (s t : Viewer) (h : core s = core t) :
    core (key_space s) = core (key_space t) := by
  simp only [core, Prod.mk.injEq] at h
  obtain ⟨h1, h2, h3, h4, h5, h6⟩ := h
  simp [core, key_space, h1, h2, h3, h4, h5, h6]

theorem key_comma_core (s t : Viewer) (h : core s = core t) :
    core (key_comma s) = core (key_comma t) := by
  simp only [core, Prod.mk.injEq] at h
  obtain ⟨h1, h2, h3, h4, h5, h6⟩ := h
  unfold key_comma
  rw [h3]
  cases t.video_playback <;> simp [core, h1, h2, h3, h4, h5, h6]

theorem key_dot_core (s t : Viewer) (h : core s = core t) :
    core (key_dot s) = core (key_dot t) := by
  simp only [core, Prod.mk.injEq] at h
  obtain ⟨h1, h2, h3, h4, h5, h6⟩ := h
  unfold key_dot
  rw [h3]
  cases t.video_playback <;> simp [core, h1, h2, h3, h4, h5, h6]

theorem ite_core (p : Prop) [Decidable p] {a b a' b' : Viewer} (ha : core a = core a')
    (hb : core b = core b') :
    core (if p then a else b) = core (if p then a' else b') := by
  split
  · exact ha
  · exact hb

/-- The `core` fields after a key press are determined by the `core` fields before. -/
theorem keyPress_core (lib : Lib) (c : Char) (s t : Viewer) (h : core s = core t) :
    core (keyPress lib c s) = core (keyPress lib c t) := by
  have h6 : s.container.length = t.container.length := by
    simp only [core, Prod.mk.injEq] at h
    exact h.2.2.2.2.2
  unfold keyPress
  rw [h6]
  refine ite_core _ ?_ (ite_core _ ?_ (ite_core _ ?_ (ite_core _ ?_ (ite_core _ ?_
    (ite_core _ ?_ (ite_core _ ?_ (ite_core _ ?_ (ite_core _ ?_ (ite_core _ ?_ h)))))))))
  · rw [key_show_core, key_show_core, h]
  · rw [key_screenshot_core, key_screenshot_core, h]
  · rw [key_r_core, key_r_core, h]
  · exact key_p_core s t h
  · exact key_s_core s t h
  · exact key_space_core s t h
  · exact key_comma_core s t h
  · exact key_dot_core s t h
  · rw [key_a_core, key_a_core, h]
  · rw [key_g_core, key_g_core, h]

theorem setFocus_core (i : Nat) (b : Bool) (s : Viewer) : core (setFocus i b s) = core s := by
  unfold setFocus
  split
  · simp [core]
  · rfl

theorem handle_core (lib : Lib) (e : Event) (s t : Viewer) (h : core s = core t) :
    core (handle lib s e) = core (handle lib t e) := by
  cases e with
  | key c => exact keyPress_core lib c s t h
  | focus i b =>
    show core (setFocus i b s) = core (setFocus i b t)
    rw [setFocus_core, setFocus_core, h]
  | handler i ivh => exact h

theorem grabStep_core (g : Option FrameSet) (s t : Viewer) (h : core s = core t) :
    core (grabStep g s) = core (grabStep g t) := by
  have h' := h
  simp only [core, Prod.mk.injEq] at h'
  obtain ⟨h1, h2, h3, h4, h5, h6⟩ := h'
  unfold grabStep
  rw [h1, h2]
  split
  · cases g <;> simp [core, Grab, Viewer.log, h1, h2, h3, h4, h5, h6]
  · exact h

theorem iteration_core (lib : Lib) (tk : Tick) (s t : Viewer) (h : core s = core t) :
    core (iteration lib s tk) = core (iteration lib t tk) := by
  unfold iteration
  have h0 : core ((renderStep (grabStep tk.grab s)).log Call.FinishFrame) =
      core ((renderStep (grabStep tk.grab t)).log Call.FinishFrame) :=
    grabStep_core tk.grab s t h
  generalize (renderStep (grabStep tk.grab s)).log Call.FinishFrame = a at h0
  generalize (renderStep (grabStep tk.grab t)).log Call.FinishFrame = b at h0
  induction tk.events generalizing a b with
  | nil => exact h0
  | cons e es ih => exact ih _ _ (handle_core lib e a b h0)

/-! ## Digit keys -/

theorem keyPress_unregistered (lib : Lib) (c : Char) (s : Viewer)
    (h1 : ¬(show_hide_keys.indexOf c < 9 ∧ show_hide_keys.indexOf c < s.container.length))
    (h2 : ¬screenshot_keys.indexOf c < 9) (hr : c ≠ 'r') (hp : c ≠ 'p') (hs : c ≠ 's')
    (hsp : c ≠ ' ') (hc : c ≠ ',') (hd : c ≠ '.') (ha : c ≠ 'a') (hg : c ≠ 'g') :
    keyPress lib c s = s := by
  unfold keyPress
  rw [if_neg h1, if_neg (fun hh => h2 hh.1), if_neg hr, if_neg hp, if_neg hs, if_neg hsp,
    if_neg hc, if_neg hd, if_neg ha, if_neg hg]

/-- A digit key runs the show/hide callback of its stream when that stream exists
and does nothing otherwise. -/
theorem keyPress_digit (lib : Lib) (c : Char) (s : Viewer) (hc : c ∈ show_hide_keys) :
    keyPress lib c s =
      if show_hide_keys.indexOf c < s.container.length then
        key_show (show_hide_keys.indexOf c) s
      else s := by
  have h9 : show_hide_keys.indexOf c < 9 := List.indexOf_lt_length.mpr hc
  by_cases h : show_hide_keys.indexOf c < s.container.length
  · rw [if_pos h]
    unfold keyPress
    rw [if_pos ⟨h9, h⟩]
  · rw [if_neg h]
    have hne : ¬screenshot_keys.indexOf c < 9 ∧ c ≠ 'r' ∧ c ≠ 'p' ∧ c ≠ 's' ∧ c ≠ ' ' ∧
        c ≠ ',' ∧ c ≠ '.' ∧ c ≠ 'a' ∧ c ≠ 'g' := by
      simp only [show_hide_keys, List.mem_cons, List.mem_singleton, List.not_mem_nil,
        or_false] at hc
      rcases hc with rfl | rfl | rfl | rfl | rfl | rfl | rfl | rfl | rfl <;> decide
    obtain ⟨h2, hr, hp, hs, hsp, hcm, hd, ha, hg⟩ := hne
    exact keyPress_unregistered lib c s (fun hh => h hh.2) h2 hr hp hs hsp hcm hd ha hg

theorem key_show_other (v j : Nat) (s : Viewer) (hj : j ≠ v) :
    IsShown (key_show v s) j = IsShown s j := by
  unfold key_show
  split
  · simp only [IsShown]
    rw [List.getElem?_set_ne (Ne.symm hj)]
  · rfl

theorem key_show_self (v : Nat) (s : Viewer) (hv : v < s.container.length) :
    IsShown (key_show v s) v = !IsShown s v := by
  unfold key_show
  split
  · rename_i d hd
    simp only [IsShown, hd]
    rw [List.getElem?_set, if_pos rfl, if_pos hv]
    rfl
  · rename_i hd
    rw [List.getElem?_eq_none_iff] at hd
    omega

/-! ## The invariant of the per-stream windowing -/

/-- The windowing vector has one entry per stream, and `images` either has one
image per stream too or is still empty with every entry at its initial value. -/
def WindowingInv (n : Nat) (s : Viewer) : Prop :=
  s.num_streams = n ∧ s.gloffsetscale.length = n ∧
    (s.images.length = n ∨
      (s.images = [] ∧ ∀ os ∈ s.gloffsetscale, os = (FloatVal.fin 0, FloatVal.fin 1)))

/-- The fields `WindowingInv` reads. -/
def win (s : Viewer) : Nat × List Image × List OffsetScale :=
  (s.num_streams, s.images, s.gloffsetscale)

theorem WindowingInv_of_win {n : Nat} {s t : Viewer} (h : win t = win s)
    (hs : WindowingInv n s) : WindowingInv n t := by
  simp only [win, Prod.mk.injEq] at h
  obtain ⟨h1, h2, h3⟩ := h
  unfold WindowingInv at *
  rw [h1, h2, h3]
  exact hs

theorem key_show_win (v : Nat) (s : Viewer) : win (key_show v s) = win s := by
  unfold key_show
  split <;> rfl

theorem key_screenshot_win (v : Nat) (s : Viewer) : win (key_screenshot v s) = win s := by
  unfold key_screenshot
  split
  · split <;> rfl
  · rfl

theorem key_r_win (s : Viewer) : win (key_r s) = win s := by
  unfold key_r
  split <;> rfl

theorem key_comma_win (s : Viewer) : win (key_comma s) = win s := by
  unfold key_comma
  split <;> rfl

theorem key_dot_win (s : Viewer) : win (key_dot s) = win s := by
  unfold key_dot
  split <;> rfl

theorem setFocus_win (i : Nat) (b : Bool) (s : Viewer) : win (setFocus i b s) = win s := by
  unfold setFocus
  split <;> rfl

theorem key_a_nil (lib : Lib) (s : Viewer) (h : s.images = []) : key_a lib s = s := by
  simp [key_a, h]

theorem key_g_nil (lib : Lib) (s : Viewer) (h : s.images = []) : key_g lib s = s := by
  simp [key_g, h]

theorem key_g_length (lib : Lib) (s : Viewer) :
    (key_g lib s).gloffsetscale.length = s.gloffsetscale.length := by
  rw [key_g_gloffsetscale, foldl_set_length]

/-- A callback that keeps `core` and the length of the windowing vector, and is
the identity while `images` is empty, keeps the invariant. -/
theorem WindowingInv_of_core {n : Nat} {s t : Viewer} (hc : core t = core s)
    (hl : t.gloffsetscale.length = s.gloffsetscale.length) (hnil : s.images = [] → t = s)
    (hs : WindowingInv n s) : WindowingInv n t := by
  simp only [core, Prod.mk.injEq] at hc
  obtain ⟨-, -, -, h4, h5, -⟩ := hc
  obtain ⟨i1, i2, i3⟩ := hs
  rcases i3 with i3 | ⟨i3, i4⟩
  · exact ⟨h5.trans i1, hl.trans i2, Or.inl (by rw [h4]; exact i3)⟩
  · rw [hnil i3]
    exact ⟨i1, i2, Or.inr ⟨i3, i4⟩⟩

theorem ite_pred (P : Viewer → Prop) (p : Prop) [Decidable p] {a b : Viewer} (ha : P a)
    (hb : P b) : P (if p then a else b) := by
  split
  · exact ha
  · exact hb

theorem keyPress_inv (lib : Lib) (c : Char) (n : Nat) (s : Viewer) (h : WindowingInv n s) :
    WindowingInv n (keyPress lib c s) := by
  unfold keyPress
  refine ite_pred _ _ ?_ (ite_pred _ _ ?_ (ite_pred _ _ ?_ (ite_pred _ _ ?_ (ite_pred _ _ ?_
    (ite_pred _ _ ?_ (ite_pred _ _ ?_ (ite_pred _ _ ?_ (ite_pred _ _ ?_
    (ite_pred _ _ ?_ h)))))))))
  · exact WindowingInv_of_win (key_show_win _ s) h
  · exact WindowingInv_of_win (key_screenshot_win _ s) h
  · exact WindowingInv_of_win (key_r_win s) h
  · exact WindowingInv_of_win (s := s) rfl h
  · exact WindowingInv_of_win (s := s) rfl h
  · exact WindowingInv_of_win (s := s) rfl h
  · exact WindowingInv_of_win (key_comma_win s) h
  · exact WindowingInv_of_win (key_dot_win s) h
  · exact WindowingInv_of_core (key_a_core lib s) (key_a_length lib s) (key_a_nil lib s) h
  · exact WindowingInv_of_core (key_g_core lib s) (key_g_length lib s) (key_g_nil lib s) h

theorem handle_inv (lib : Lib) (e : Event) (n : Nat) (s : Viewer) (h : WindowingInv n s) :
    WindowingInv n (handle lib s e) := by
  cases e with
  | key c => exact keyPress_inv lib c n s h
  | focus i b => exact WindowingInv_of_win (setFocus_win i b s) h
  | handler i ivh => exact WindowingInv_of_win (s := s) rfl h

theorem grabStep_inv (g : Option FrameSet) (n : Nat) (s : Viewer) (h : WindowingInv n s) :
    WindowingInv n (grabStep g s) := by
  unfold grabStep
  split
  · cases g with
    | none => exact WindowingInv_of_win (s := s) rfl h
    | some fs =>
      obtain ⟨i1, i2, -⟩ := h
      refine ⟨i1, i2, Or.inl ?_⟩
      simp [Grab, Viewer.log, i1]
  · exact h

theorem iteration_inv (lib : Lib) (tk : Tick) (n : Nat) (s : Viewer) (h : WindowingInv n s) :
    WindowingInv n (iteration lib s tk) := by
  unfold iteration
  refine foldl_invariant (handle lib) (WindowingInv n) (fun a e ha => handle_inv lib e n a ha)
    tk.events _ ?_
  exact WindowingInv_of_win (s := grabStep tk.grab s) rfl (grabStep_inv tk.grab n s h)

theorem startup_inv (lib : Lib) (src : Source) (input_uri output_uri : String) :
    WindowingInv src.Streams.length (startup lib src input_uri output_uri) := by
  refine ⟨rfl, ?_, Or.inr ⟨rfl, ?_⟩⟩
  · simp [startup]
  · intro os hos
    simp only [startup, List.mem_map] at hos
    obtain ⟨_, _, h⟩ := hos
    exact h.symm

theorem Reachable_inv (lib : Lib) (src : Source) (s : Viewer) (h : Reachable lib src s) :
    WindowingInv src.Streams.length s := by
  obtain ⟨input_uri, output_uri, ticks, rfl⟩ := h
  unfold renderLoop
  exact foldl_invariant (iteration lib) (WindowingInv src.Streams.length)
    (fun a tk ha => iteration_inv lib tk _ a ha) ticks _ (startup_inv lib src _ _)

/-! ## The default-source loop -/

/-- With no arguments, when the default at index `k` is the first that does not
throw, `main` hands exactly the defaults `0 .. k` to `VideoViewer`, in list
order, and returns 0. -/
theorem main_default_opens (attempt : String → String → Outcome) (k : Nat)
    (hopen : (input_uris[k]?).map (fun u => attempt u dflt_output_uri) = some Outcome.returned)
    (hfail : ∀ j < k, (input_uris[j]?).map (fun u => attempt u dflt_output_uri) =
      some Outcome.threw) :
    main ["VideoViewer"] attempt = ⟨input_uris.toList.take (k + 1), MainResult.exit 0⟩ := by
  have hk : k < 5 := by
    by_contra hge
    have : input_uris[k]? = none := by
      rw [Array.getElem?_eq_none_iff]
      show 5 ≤ k
      omega
    rw [this] at hopen
    exact Option.noConfusion hopen
  have hne : ∀ i < 5, (input_uris[i]?).map String.isEmpty = some false := by decide
  have e0 := hne 0 (by decide)
  have e1 := hne 1 (by decide)
  have e2 := hne 2 (by decide)
  have e3 := hne 3 (by decide)
  have e4 := hne 4 (by decide)
  clear hne
  have h0 := hfail 0
  have h1 := hfail 1
  have h2 := hfail 2
  have h3 := hfail 3
  interval_cases k <;>
    simp_all [main, tryDefaults, input_uris, dflt_output_uri]

/-! ## What the `a` and `g` callbacks store -/

/-- The effect of the body of the `a` loop on the windowing vector alone, with
focus and images read from the state `s` at entry. -/
def a_step (lib : Lib) (s : Viewer) (g : List OffsetScale) (i : Nat) : List OffsetScale :=
  if HasFocus s i then
    match offsetScaleOf lib s i with
    | some os => g.set i os
    | none => g
  else g

/-- The fields the `a` and `g` loops read but never write. -/
def views (s : Viewer) :
    List Image × List ImageViewHandler × List GlPixFormat × List View :=
  (s.images, s.handlers, s.glfmt, s.container)

theorem key_a_body_step (lib : Lib) (s t : Viewer) (i : Nat) (h : views t = views s) :
    views (key_a_body lib t i) = views s ∧
      (key_a_body lib t i).gloffsetscale = a_step lib s t.gloffsetscale i := by
  have h' := h
  simp only [views, Prod.mk.injEq] at h'
  obtain ⟨h1, h2, h3, h4⟩ := h'
  have hF : HasFocus t i = HasFocus s i := by simp only [HasFocus, h4]
  have hO : offsetScaleOf lib t i = offsetScaleOf lib s i := by
    simp only [offsetScaleOf, h1, h2, h3]
  unfold key_a_body a_step
  rw [hF, hO]
  cases HasFocus s i
  · exact ⟨h, rfl⟩
  · cases offsetScaleOf lib s i
    · exact ⟨h, rfl⟩
    · exact ⟨h, rfl⟩

theorem key_a_fold (lib : Lib) (s : Viewer) (l : List Nat) (t : Viewer)
    (h : views t = views s) :
    (l.foldl (key_a_body lib) t).gloffsetscale = l.foldl (a_step lib s) t.gloffsetscale := by
  induction l generalizing t with
  | nil => rfl
  | cons i l ih =>
    simp only [List.foldl_cons]
    rw [ih _ (key_a_body_step lib s t i h).1, (key_a_body_step lib s t i h).2]

theorem key_a_gloffsetscale (lib : Lib) (s : Viewer) :
    (key_a lib s).gloffsetscale =
      (List.range s.images.length).foldl (a_step lib s) s.gloffsetscale :=
  key_a_fold lib s _ s rfl

theorem a_step_length (lib : Lib) (s : Viewer) (g : List OffsetScale) (i : Nat) :
    (a_step lib s g i).length = g.length := by
  unfold a_step
  split
  · split
    · simp
    · rfl
  · rfl

theorem a_fold_length (lib : Lib) (s : Viewer) (l : List Nat) (g : List OffsetScale) :
    (l.foldl (a_step lib s) g).length = g.length :=
  foldl_invariant (a_step lib s) (fun t => t.length = g.length)
    (fun a b ha => (a_step_length lib s a b).trans ha) l g rfl

theorem a_step_other (lib : Lib) (s : Viewer) (g : List OffsetScale) (i j : Nat)
    (hij : i ≠ j) : (a_step lib s g i)[j]? = g[j]? := by
  unfold a_step
  split
  · split
    · rw [List.getElem?_set_ne hij]
    · rfl
  · rfl

theorem a_step_focused (lib : Lib) (s : Viewer) (v : OffsetScale) (g : List OffsetScale)
    (i : Nat) (hf : HasFocus s i = true) (hv : offsetScaleOf lib s i = some v) :
    a_step lib s g i = g.set i v := by
  unfold a_step
  rw [hf, hv]
  rfl

/-- The `a` loop over the indices `0 .. n-1` leaves at a focused index `j < n`
the windowing computed for stream `j`. -/
theorem a_fold_focused (lib : Lib) (s : Viewer) (v : OffsetScale) (j : Nat)
    (hf : HasFocus s j = true) (hv : offsetScaleOf lib s j = some v) (n : Nat)
    (g : List OffsetScale) (hj : j < n) (hl : j < g.length) :
    ((List.range n).foldl (a_step lib s) g)[j]? = some v := by
  induction n with
  | zero => omega
  | succ n ih =>
    rw [List.range_succ, List.foldl_append]
    simp only [List.foldl_cons, List.foldl_nil]
    by_cases hjn : n = j
    · subst hjn
      rw [a_step_focused lib s v _ n hf hv, List.getElem?_set, if_pos rfl, a_fold_length,
        if_pos hl]
    · rw [a_step_other lib s _ n j hjn]
      exact ih (by omega)

/-- Assigning `v` to the indices `0 .. n-1` leaves `v` at every index below `n`
that the list has. -/
theorem foldl_set_range_get {α : Type} (v : α) (n : Nat) (g : List α) (j : Nat) (hj : j < n)
    (hl : j < g.length) : ((List.range n).foldl (fun g i => g.set i v) g)[j]? = some v := by
  induction n with
  | zero => omega
  | succ n ih =>
    rw [List.range_succ, List.foldl_append]
    simp only [List.foldl_cons, List.foldl_nil]
    by_cases hjn : n = j
    · subst hjn
      rw [List.getElem?_set, if_pos rfl, foldl_set_length, if_pos hl]
    · rw [List.getElem?_set_ne hjn]
      exact ih (by omega)

theorem os_default_from_unfocused (lib : Lib) (s : Viewer) (os : OffsetScale) (l : List Nat)
    (h : ∀ j ∈ l, HasFocus s j = false) : os_default_from lib s os l = os := by
  induction l with
  | nil => rfl
  | cons i l ih =>
    unfold os_default_from
    rw [h i (List.mem_cons_self i l)]
    simp only [Bool.false_eq_true, if_false]
    exact ih (fun j hj => h j (List.mem_cons_of_mem i hj))

theorem os_default_from_first (lib : Lib) (s : Viewer) (os v : OffsetScale) (i : Nat)
    (pre post : List Nat) (hpre : ∀ j ∈ pre, HasFocus s j = false)
    (hf : HasFocus s i = true) (hv : offsetScaleOf lib s i = some v) :
    os_default_from lib s os (pre ++ i :: post) = v := by
  induction pre with
  | nil =>
    simp only [List.nil_append]
    unfold os_default_from
    rw [hf, hv]
    rfl
  | cons k pre ih =>
    simp only [List.cons_append]
    unfold os_default_from
    rw [hpre k (List.mem_cons_self k pre)]
    simp only [Bool.false_eq_true, if_false]
    exact ih (fun j hj => hpre j (List.mem_cons_of_mem k hj))

/-- With no focused stream among the images, `os_default` keeps its initial value. -/
theorem os_default_unfocused (lib : Lib) (s : Viewer)
    (h : ∀ i < s.images.length, HasFocus s i = false) :
    os_default lib s = (FloatVal.fin 0, FloatVal.fin 1) :=
  os_default_from_unfocused lib s _ _ (fun j hj => h j (List.mem_range.mp hj))

/-- The value of `os_default` is the windowing of the first focused stream. -/
theorem os_default_first (lib : Lib) (s : Viewer) (v : OffsetScale) (i : Nat)
    (hi : i < s.images.length) (hf : HasFocus s i = true)
    (hfirst : ∀ j < i, HasFocus s j = false) (hv : offsetScaleOf lib s i = some v) :
    os_default lib s = v := by
  unfold os_default
  have hn : s.images.length = i + ((s.images.length - i - 1) + 1) := by omega
  rw [hn, List.range_add, List.range_succ_eq_map]
  simp only [List.map_cons, Nat.add_zero]
  exact os_default_from_first lib s _ v i _ _ (fun j hj => hfirst j (List.mem_range.mp hj))
    hf hv

/-- The `g` callback leaves `os_default` at every index that has an image. -/
theorem key_g_get (lib : Lib) (s : Viewer) (k : Nat) (hk : k < s.images.length)
    (hl : k < s.gloffsetscale.length) :
    (key_g lib s).gloffsetscale[k]? = some (os_default lib s) := by
  rw [key_g_gloffsetscale]
  exact foldl_set_range_get _ _ _ k hk hl

/-- The `a` callback leaves at a focused index the windowing of that stream. -/
theorem key_a_get (lib : Lib) (s : Viewer) (v : OffsetScale) (i : Nat)
    (hi : i < s.images.length) (hl : i < s.gloffsetscale.length) (hf : HasFocus s i = true)
    (hv : offsetScaleOf lib s i = some v) : (key_a lib s).gloffsetscale[i]? = some v := by
  rw [key_a_gloffsetscale]
  exact a_fold_focused lib s v i hf hv _ _ hi hl

theorem offsetScaleOf_eq (lib : Lib) (s : Viewer) (i : Nat) (img : Image)
    (ivh : ImageViewHandler) (fmt : GlPixFormat) (himg : s.images[i]? = some img)
    (hivh : s.handlers[i]? = some ivh) (hfmt : s.glfmt[i]? = some fmt) :
    offsetScaleOf lib s i = some (lib.GetOffsetScale img (froi lib ivh) fmt) := by
  simp [offsetScaleOf, himg, hivh, hfmt]

theorem froi_selection (lib : Lib) (ivh : ImageViewHandler) (q : ℚ)
    (hq : lib.Area ivh.GetSelection = FloatVal.fin q) (h4 : 4 ≤ |q|) :
    froi lib ivh = ivh.GetSelection := by
  simp [froi, have_selection, hq, FloatVal.isfinite, FloatVal.abs, FloatVal.ge, h4]

theorem froi_view (lib : Lib) (ivh : ImageViewHandler)
    (h : (lib.Area ivh.GetSelection).isfinite = false ∨
      ∃ q : ℚ, lib.Area ivh.GetSelection = FloatVal.fin q ∧ |q| < 4) :
    froi lib ivh = ivh.GetViewToRender := by
  rcases h with h | ⟨q, hq, h4⟩
  · simp [froi, have_selection, h]
  · simp [froi, have_selection, hq, FloatVal.isfinite, FloatVal.abs, FloatVal.ge, h4]

/-- For a focused stream `i` with image, handler and format, the `a` callback
stores the windowing of `froi` at `i`, and when `i` is the first focused stream
the `g` callback computes that windowing and stores it at every index with an image. -/
theorem key_a_g_store (lib : Lib) (s : Viewer) (i : Nat) (img : Image)
    (ivh : ImageViewHandler) (fmt : GlPixFormat) (himg : s.images[i]? = some img)
    (hivh : s.handlers[i]? = some ivh) (hfmt : s.glfmt[i]? = some fmt)
    (hfocus : HasFocus s i = true) :
    (i < s.gloffsetscale.length →
        (key_a lib s).gloffsetscale[i]? = some (lib.GetOffsetScale img (froi lib ivh) fmt)) ∧
      ((∀ j < i, HasFocus s j = false) →
        os_default lib s = lib.GetOffsetScale img (froi lib ivh) fmt ∧
        ∀ k, k < s.images.length → k < s.gloffsetscale.length →
          (key_g lib s).gloffsetscale[k]? =
            some (lib.GetOffsetScale img (froi lib ivh) fmt)) := by
  have hi : i < s.images.length := by
    by_contra hge
    rw [List.getElem?_eq_none_iff.mpr (by omega)] at himg
    exact Option.noConfusion himg
  have hv := offsetScaleOf_eq lib s i img ivh fmt himg hivh hfmt
  refine ⟨fun hl => key_a_get lib s _ i hi hl hfocus hv, fun hfirst => ?_⟩
  have hd := os_default_first lib s _ i hi hfocus hfirst hv
  refine ⟨hd, fun k hk hl => ?_⟩
  rw [key_g_get lib s k hk hl, hd]

/-! ## The per-stream vectors keep one entry per stream -/

/-- The lengths of `handlers` and `glfmt`. -/
def shape (s : Viewer) : Nat × Nat :=
  (s.handlers.length, s.glfmt.length)

theorem key_show_shape (v : Nat) (s : Viewer) : shape (key_show v s) = shape s := by
  unfold key_show
  split <;> rfl

theorem key_screenshot_shape (v : Nat) (s : Viewer) :
    shape (key_screenshot v s) = shape s := by
  unfold key_screenshot
  split
  · split <;> rfl
  · rfl

theorem key_r_shape (s : Viewer) : shape (key_r s) = shape s := by
  unfold key_r
  split <;> rfl

theorem key_comma_shape (s : Viewer) : shape (key_comma s) = shape s := by
  unfold key_comma
  split <;> rfl

theorem key_dot_shape (s : Viewer) : shape (key_dot s) = shape s := by
  unfold key_dot
  split <;> rfl

theorem key_a_body_shape (lib : Lib) (s : Viewer) (i : Nat) :
    shape (key_a_body lib s i) = shape s := by
  unfold key_a_body
  split
  · split <;> rfl
  · rfl

theorem key_a_shape (lib : Lib) (s : Viewer) : shape (key_a lib s) = shape s :=
  foldl_invariant (key_a_body lib) (fun t => shape t = shape s)
    (fun a b ha => (key_a_body_shape lib a b).trans ha) _ s rfl

theorem key_g_shape (lib : Lib) (s : Viewer) : shape (key_g lib s) = shape s := by
  unfold key_g
  refine foldl_invariant _ (fun t => shape t = shape s) ?_ _ s rfl
  intro a b ha
  exact ha

theorem keyPress_shape (lib : Lib) (c : Char) (s : Viewer) :
    shape (keyPress lib c s) = shape s := by
  unfold keyPress
  have hP : ∀ (p : Prop) [Decidable p] (a b : Viewer), shape a = shape s → shape b = shape s →
      shape (if p then a else b) = shape s :=
    fun p _ a b ha hb => ite_pred (fun t => shape t = shape s) p ha hb
  refine hP _ _ _ ?_ (hP _ _ _ ?_ (hP _ _ _ ?_ (hP _ _ _ ?_ (hP _ _ _ ?_ (hP _ _ _ ?_
    (hP _ _ _ ?_ (hP _ _ _ ?_ (hP _ _ _ ?_ (hP _ _ _ ?_ rfl)))))))))
  · exact key_show_shape _ s
  · exact key_screenshot_shape _ s
  · exact key_r_shape s
  · rfl
  · rfl
  · rfl
  · exact key_comma_shape s
  · exact key_dot_shape s
  · exact key_a_shape lib s
  · exact key_g_shape lib s

theorem handle_shape (lib : Lib) (e : Event) (s : Viewer) :
    shape (handle lib s e) = shape s := by
  cases e with
  | key c => exact keyPress_shape lib c s
  | focus i b =>
    show shape (setFocus i b s) = shape s
    unfold setFocus
    split <;> rfl
  | handler i ivh =>
    show shape (setHandler i ivh s) = shape s
    simp [shape, setHandler]

theorem grabStep_shape (g : Option FrameSet) (s : Viewer) :
    shape (grabStep g s) = shape s := by
  unfold grabStep
  split
  · cases g <;> rfl
  · rfl

theorem iteration_shape (lib : Lib) (tk : Tick) (s : Viewer) :
    shape (iteration lib s tk) = shape s := by
  unfold iteration
  refine foldl_invariant (handle lib) (fun t => shape t = shape s)
    (fun a e ha => (handle_shape lib e a).trans ha) tk.events _ ?_
  exact grabStep_shape tk.grab s

/-- In a reachable state `handlers` and `glfmt` have one entry per stream. -/
theorem Reachable_shape (lib : Lib) (src : Source) (s : Viewer) (h : Reachable lib src s) :
    s.handlers.length = src.Streams.length ∧ s.glfmt.length = src.Streams.length := by
  obtain ⟨input_uri, output_uri, ticks, rfl⟩ := h
  have hs : shape (renderLoop lib ticks (startup lib src input_uri output_uri)) =
      (src.Streams.length, src.Streams.length) := by
    unfold renderLoop
    refine foldl_invariant (iteration lib)
      (fun t => shape t = (src.Streams.length, src.Streams.length))
      (fun a tk ha => (iteration_shape lib tk a).trans ha) ticks _ ?_
    simp [shape, startup]
  simp only [shape, Prod.mk.injEq] at hs
  exact hs

/-! ## Theorems -/

/-- C1: at the first frame (`c = 0`) of a 100-frame random-access source, the `,`
callback passes the frame index `-30` to `Seek`: the index is negative, not
clamped to `[0, 99]`. -/
theorem comma_seek_negative :
    comma_frame ⟨0, 100⟩ = -30 ∧
    (key_comma (sampleViewer 1 (some ⟨0, 100⟩))).calls.getLast? = some (Call.Seek (-30)) := by
  constructor
  · decide
  · decide

/-- C2: with no arguments and every default source failing to open, `main` tries
the five listed URIs once each in order and then reads `input_uris[5]`, one past
the end of the five-element array, instead of stopping and returning 0. -/
theorem main_defaults_out_of_bounds :
    input_uris.size = 5 ∧
    main ["VideoViewer"] (fun _ _ => Outcome.threw) =
      ⟨input_uris.toList, MainResult.outOfBounds 5⟩ := by
  constructor
  · decide
  · decide

/-- C3: one loop iteration calls `video.Grab` once when the frame counter is 0 or
below `end_frame` and not at all otherwise; a successful pull raises the frame
counter by exactly 1; a failed or skipped pull leaves it as it was; `end_frame`
never changes. -/
theorem grabStep_pull (g : Option FrameSet) (s : Viewer) (hf : isInt s.frame)
    (he : isInt s.end_frame) :
    (grabStep g s).calls =
        s.calls ++ (if s.frame = 0 ∨ s.frame < s.end_frame then [Call.Grab] else []) ∧
      ((s.frame = 0 ∨ s.frame < s.end_frame) → g.isSome = true →
        (grabStep g s).frame = s.frame + 1) ∧
      ((¬(s.frame = 0 ∨ s.frame < s.end_frame) ∨ g = none) →
        (grabStep g s).frame = s.frame) ∧
      (grabStep g s).end_frame = s.end_frame := by
  have hw : (s.frame = 0 ∨ s.frame < s.end_frame) → wrapInt (s.frame + 1) = s.frame + 1 := by
    intro hc
    apply wrapInt_of_isInt
    unfold isInt INT_MIN INT_MAX at *
    omega
  by_cases hc : s.frame = 0 ∨ s.frame < s.end_frame
  · cases g with
    | none => simp [grabStep, hc, Viewer.log]
    | some fs => simp [grabStep, hc, Viewer.log, Grab, hw hc]
  · simp [grabStep, hc]

theorem grabStep_pull_witness :
    (isInt (sampleViewer 1 none).frame ∧ isInt (sampleViewer 1 none).end_frame) ∧
    ((grabStep (some sampleFrameSet) (sampleViewer 1 none)).calls =
        (sampleViewer 1 none).calls ++
          (if (sampleViewer 1 none).frame = 0 ∨
              (sampleViewer 1 none).frame < (sampleViewer 1 none).end_frame
            then [Call.Grab] else []) ∧
      (((sampleViewer 1 none).frame = 0 ∨
          (sampleViewer 1 none).frame < (sampleViewer 1 none).end_frame) →
        (some sampleFrameSet).isSome = true →
        (grabStep (some sampleFrameSet) (sampleViewer 1 none)).frame =
          (sampleViewer 1 none).frame + 1) ∧
      ((¬((sampleViewer 1 none).frame = 0 ∨
          (sampleViewer 1 none).frame < (sampleViewer 1 none).end_frame) ∨
          some sampleFrameSet = none) →
        (grabStep (some sampleFrameSet) (sampleViewer 1 none)).frame =
          (sampleViewer 1 none).frame) ∧
      (grabStep (some sampleFrameSet) (sampleViewer 1 none)).end_frame =
        (sampleViewer 1 none).end_frame) :=
  ⟨⟨by decide, by decide⟩,
   grabStep_pull (some sampleFrameSet) (sampleViewer 1 none) (by decide) (by decide)⟩

/-- C4: in an unpaused state (`end_frame = INT_MAX`, frame counter below `INT_MAX`)
the space key sets `end_frame` to the frame counter, and a second press with the
frame counter unchanged sets `end_frame` back to `INT_MAX`. -/
theorem key_space_twice (s : Viewer) (h1 : s.end_frame = INT_MAX) (h2 : s.frame < INT_MAX) :
    (key_space s).end_frame = s.frame ∧ (key_space s).frame = s.frame ∧
      (key_space (key_space s)).end_frame = INT_MAX ∧
      (key_space (key_space s)).frame = s.frame := by
  simp [key_space, h1, h2]

theorem key_space_twice_witness :
    ((sampleViewer 1 none).end_frame = INT_MAX ∧ (sampleViewer 1 none).frame < INT_MAX) ∧
    ((key_space (sampleViewer 1 none)).end_frame = (sampleViewer 1 none).frame ∧
      (key_space (sampleViewer 1 none)).frame = (sampleViewer 1 none).frame ∧
      (key_space (key_space (sampleViewer 1 none))).end_frame = INT_MAX ∧
      (key_space (key_space (sampleViewer 1 none))).frame = (sampleViewer 1 none).frame) :=
  ⟨⟨by decide, by decide⟩, key_space_twice (sampleViewer 1 none) (by decide) (by decide)⟩

/-- C6: on a random-access source with `T ≥ 1` frames at position `c` in `[0, T-1]`,
pressing `,` and then `.` issues `Seek (c - 30)` followed by a seek to a frame
index `n` with `0 ≤ n ≤ T - 1` (in fact `n = c`), which is then the current frame. -/
theorem comma_then_dot_in_range (s : Viewer) (c T : Int)
    (hvp : s.video_playback = some ⟨c, T⟩) (hT : 1 ≤ T) (hT2 : T ≤ INT_MAX)
    (hc0 : 0 ≤ c) (hc1 : c ≤ T - 1) :
    ∃ n : Int, (key_dot (key_comma s)).calls = s.calls ++ [Call.Seek (c - 30), Call.Seek n] ∧
      (key_dot (key_comma s)).video_playback = some ⟨n, T⟩ ∧ 0 ≤ n ∧ n ≤ T - 1 := by
  have h1 := comma_frame_eq c T hT hT2 hc0 hc1
  have h2 : dot_frame ⟨c - 30, T⟩ = c := by
    unfold INT_MAX at hT2
    have hw : wrapInt (c - 30 + FRAME_SKIP) = c := by unfold wrapInt FRAME_SKIP; omega
    show max (wrapInt (c - 30 + FRAME_SKIP)) 0 = c
    rw [hw]
    exact max_eq_left hc0
  refine ⟨c, ?_, ?_, hc0, hc1⟩
  · simp [key_dot, key_comma, hvp, VideoPlaybackInterface.Seek, h1, h2]
  · simp [key_dot, key_comma, hvp, VideoPlaybackInterface.Seek, h1, h2]

theorem comma_then_dot_in_range_witness :
    ((sampleViewer 1 (some ⟨10, 100⟩)).video_playback = some ⟨10, 100⟩ ∧
      (1 : Int) ≤ 100 ∧ (100 : Int) ≤ INT_MAX ∧ (0 : Int) ≤ 10 ∧ (10 : Int) ≤ 100 - 1) ∧
    ∃ n : Int,
      (key_dot (key_comma (sampleViewer 1 (some ⟨10, 100⟩)))).calls =
        (sampleViewer 1 (some ⟨10, 100⟩)).calls ++ [Call.Seek (10 - 30), Call.Seek n] ∧
      (key_dot (key_comma (sampleViewer 1 (some ⟨10, 100⟩)))).video_playback = some ⟨n, 100⟩ ∧
      0 ≤ n ∧ n ≤ 100 - 1 :=
  ⟨⟨rfl, by decide, by decide, by decide, by decide⟩,
   comma_then_dot_in_range (sampleViewer 1 (some ⟨10, 100⟩)) 10 100 rfl (by decide)
     (by decide) (by decide) (by decide)⟩

/-- C7: when the opened source has no streams, `VideoViewer` opens the source,
prints the error and returns: the call log holds just these two calls, so no
window is created and no frame is pulled, whatever the URIs and later events. -/
theorem zero_streams_no_window (lib : Lib) (src : Source) (input_uri output_uri : String)
    (ticks : List Tick) (h : src.Streams.length = 0) :
    (VideoViewer lib src input_uri output_uri ticks).calls =
        [Call.Open input_uri output_uri, Call.PrintError "No video streams from device.\n"] ∧
      (∀ title wd ht, Call.CreateWindowAndBind title wd ht ∉
        (VideoViewer lib src input_uri output_uri ticks).calls) ∧
      Call.Grab ∉ (VideoViewer lib src input_uri output_uri ticks).calls := by
  have hc : (VideoViewer lib src input_uri output_uri ticks).calls =
      [Call.Open input_uri output_uri, Call.PrintError "No video streams from device.\n"] := by
    simp [VideoViewer, opened, h, Viewer.log]
  rw [hc]
  simp

theorem zero_streams_no_window_witness :
    (sampleSource 0 none).Streams.length = 0 ∧
    ((VideoViewer sampleLib (sampleSource 0 none) "test://" "out://"
          [⟨some sampleFrameSet, [Event.key 'g']⟩]).calls =
        [Call.Open "test://" "out://", Call.PrintError "No video streams from device.\n"] ∧
      (∀ title wd ht, Call.CreateWindowAndBind title wd ht ∉
        (VideoViewer sampleLib (sampleSource 0 none) "test://" "out://"
          [⟨some sampleFrameSet, [Event.key 'g']⟩]).calls) ∧
      Call.Grab ∉ (VideoViewer sampleLib (sampleSource 0 none) "test://" "out://"
          [⟨some sampleFrameSet, [Event.key 'g']⟩]).calls) :=
  ⟨rfl, zero_streams_no_window sampleLib (sampleSource 0 none) "test://" "out://"
    [⟨some sampleFrameSet, [Event.key 'g']⟩] rfl⟩

/-- C10: the `r` callback calls `Record` when the sink is not recording and `Stop`
when it is, and nothing else; from an idle sink, pressing `r` twice issues one
`Record` followed by one `Stop` and leaves the sink idle. -/
theorem key_r_toggle (s : Viewer) :
    (key_r s).calls = s.calls ++ [if s.IsRecording then Call.Stop else Call.Record] ∧
      (key_r s).IsRecording = !s.IsRecording ∧
      (s.IsRecording = false →
        (key_r (key_r s)).calls = s.calls ++ [Call.Record, Call.Stop] ∧
        (key_r (key_r s)).IsRecording = false) := by
  cases h : s.IsRecording <;> simp [key_r, Viewer.Record, Viewer.Stop, h]

theorem key_r_toggle_witness :
    (sampleViewer 1 none).IsRecording = false ∧
    (key_r (key_r (sampleViewer 1 none))).calls =
      (sampleViewer 1 none).calls ++ [Call.Record, Call.Stop] ∧
    (key_r (key_r (sampleViewer 1 none))).IsRecording = false :=
  ⟨rfl, (key_r_toggle (sampleViewer 1 none)).2.2 rfl⟩

/-- C5 as stated fails.  In `sampleDraggedRun` the focused stream 1 has a
selection of area `-10`, which is below 4; yet the `a` callback stores for stream 1,
and the `g` callback stores for every stream, the windowing `(5, 0)` of the
selection and not the windowing `(0, 640)` of the visible region. -/
theorem key_a_g_negative_area_uses_selection :
    HasFocus sampleDraggedRun 1 = true ∧
    sampleDraggedRun.images[1]? = some ⟨2, 640, 480⟩ ∧
    sampleDraggedRun.handlers[1]? = some sampleDragged ∧
    sampleDraggedRun.glfmt[1]? = some 7 ∧
    sampleLibRoi.GetOffsetScale ⟨2, 640, 480⟩ sampleDragged.GetSelection 7 =
      (FloatVal.fin 5, FloatVal.fin 0) ∧
    sampleLibRoi.Area sampleDragged.GetSelection = FloatVal.fin (-10) ∧
    FloatVal.lt (sampleLibRoi.Area sampleDragged.GetSelection) (FloatVal.fin 4) = true ∧
    (key_a sampleLibRoi sampleDraggedRun).gloffsetscale[1]? =
      some (FloatVal.fin 5, FloatVal.fin 0) ∧
    (key_g sampleLibRoi sampleDraggedRun).gloffsetscale =
      [(FloatVal.fin 5, FloatVal.fin 0), (FloatVal.fin 5, FloatVal.fin 0)] ∧
    sampleLibRoi.GetOffsetScale ⟨2, 640, 480⟩ sampleDragged.GetViewToRender 7 =
      (FloatVal.fin 0, FloatVal.fin 640) ∧
    (FloatVal.fin 5, FloatVal.fin 0) ≠ (FloatVal.fin 0, FloatVal.fin 640) := by
  have ha : sampleLibRoi.Area sampleDragged.GetSelection = FloatVal.fin (-10) := by
    simp only [sampleLibRoi, sampleLib, sampleDragged]
    norm_num
  have hsel : froi sampleLibRoi sampleDragged = sampleDragged.GetSelection :=
    froi_selection sampleLibRoi sampleDragged (-10) ha (by decide)
  have hst := key_a_g_store sampleLibRoi sampleDraggedRun 1 ⟨2, 640, 480⟩ sampleDragged 7
    (by decide) (by decide) (by decide) (by decide)
  rw [hsel] at hst
  have hg := hst.2 (by decide)
  refine ⟨by decide, by decide, by decide, by decide, rfl, ha, by rw [ha]; decide,
    hst.1 (by decide), ?_, rfl, by decide⟩
  have hlen : (key_g sampleLibRoi sampleDraggedRun).gloffsetscale.length = 2 := by
    rw [key_g_length]
    decide
  have h0 := hg.2 0 (by decide) (by decide)
  have h1 := hg.2 1 (by decide) (by decide)
  apply List.ext_getElem?
  intro k
  rcases Nat.lt_or_ge k 2 with hk | hk
  · interval_cases k
    · rw [h0]; rfl
    · rw [h1]; rfl
  · rw [List.getElem?_eq_none_iff.mpr (by omega), List.getElem?_eq_none_iff.mpr (by simpa using hk)]

/-- C5 amended: for a focused stream `i` with image, handler and pixel format,
the `a` callback stores for `i`, and (when `i` is the first focused stream) the
`g` callback computes as `os_default` and stores for every stream with an image,
`GetOffsetScale` of the selection when the selection's area is finite with
absolute value at least 4, and `GetOffsetScale` of the full visible region when
the area is not finite or its absolute value is below 4. -/
theorem key_a_g_roi (lib : Lib) (s : Viewer) (i : Nat) (img : Image)
    (ivh : ImageViewHandler) (fmt : GlPixFormat) (himg : s.images[i]? = some img)
    (hivh : s.handlers[i]? = some ivh) (hfmt : s.glfmt[i]? = some fmt)
    (hfocus : HasFocus s i = true) :
    ((∃ q : ℚ, lib.Area ivh.GetSelection = FloatVal.fin q ∧ 4 ≤ |q|) →
      (i < s.gloffsetscale.length →
        (key_a lib s).gloffsetscale[i]? =
          some (lib.GetOffsetScale img ivh.GetSelection fmt)) ∧
      ((∀ j < i, HasFocus s j = false) →
        os_default lib s = lib.GetOffsetScale img ivh.GetSelection fmt ∧
        ∀ k, k < s.images.length → k < s.gloffsetscale.length →
          (key_g lib s).gloffsetscale[k]? =
            some (lib.GetOffsetScale img ivh.GetSelection fmt))) ∧
    (((lib.Area ivh.GetSelection).isfinite = false ∨
        ∃ q : ℚ, lib.Area ivh.GetSelection = FloatVal.fin q ∧ |q| < 4) →
      (i < s.gloffsetscale.length →
        (key_a lib s).gloffsetscale[i]? =
          some (lib.GetOffsetScale img ivh.GetViewToRender fmt)) ∧
      ((∀ j < i, HasFocus s j = false) →
        os_default lib s = lib.GetOffsetScale img ivh.GetViewToRender fmt ∧
        ∀ k, k < s.images.length → k < s.gloffsetscale.length →
          (key_g lib s).gloffsetscale[k]? =
            some (lib.GetOffsetScale img ivh.GetViewToRender fmt))) := by
  have hst := key_a_g_store lib s i img ivh fmt himg hivh hfmt hfocus
  constructor
  · rintro ⟨q, hq, h4⟩
    rw [froi_selection lib ivh q hq h4] at hst
    exact hst
  · intro h
    rw [froi_view lib ivh h] at hst
    exact hst

theorem key_a_g_roi_witness :
    (sampleDraggedRun.images[1]? = some ⟨2, 640, 480⟩ ∧
      sampleDraggedRun.handlers[1]? = some sampleDragged ∧
      sampleDraggedRun.glfmt[1]? = some 7 ∧ HasFocus sampleDraggedRun 1 = true ∧
      (∃ q : ℚ, sampleLibRoi.Area sampleDragged.GetSelection = FloatVal.fin q ∧ 4 ≤ |q|) ∧
      1 < sampleDraggedRun.gloffsetscale.length) ∧
    (key_a sampleLibRoi sampleDraggedRun).gloffsetscale[1]? =
      some (sampleLibRoi.GetOffsetScale ⟨2, 640, 480⟩ sampleDragged.GetSelection 7) :=
  ⟨⟨by decide, by decide, by decide, by decide,
      ⟨-10, by simp only [sampleLibRoi, sampleLib, sampleDragged]; norm_num, by decide⟩,
      by decide⟩,
   ((key_a_g_roi sampleLibRoi sampleDraggedRun 1 ⟨2, 640, 480⟩ sampleDragged 7 (by decide)
      (by decide) (by decide) (by decide)).1
      ⟨-10, by simp only [sampleLibRoi, sampleLib, sampleDragged]; norm_num, by decide⟩).1
      (by decide)⟩

/-- C8: in every state the render loop reaches from startup, after the `g`
callback the windowing vector has one entry per stream and every entry is the
value `os_default` that the callback computed; that value is the initial
`(0, 1)` when no stream with an image has the focus, and otherwise it is
`GetOffsetScale` on the image, region of interest and pixel format of the first
focused stream, all of which exist. -/
theorem key_g_uniform (lib : Lib) (src : Source) (s : Viewer) (h : Reachable lib src s) :
    (key_g lib s).gloffsetscale.length = src.Streams.length ∧
      (∀ os ∈ (key_g lib s).gloffsetscale, os = os_default lib s) ∧
      ((∀ i < s.images.length, HasFocus s i = false) →
        os_default lib s = (FloatVal.fin 0, FloatVal.fin 1)) ∧
      (∀ i < s.images.length, HasFocus s i = true → (∀ j < i, HasFocus s j = false) →
        ∃ img ivh fmt, s.images[i]? = some img ∧ s.handlers[i]? = some ivh ∧
          s.glfmt[i]? = some fmt ∧
          os_default lib s = lib.GetOffsetScale img (froi lib ivh) fmt ∧
          ∀ os ∈ (key_g lib s).gloffsetscale,
            os = lib.GetOffsetScale img (froi lib ivh) fmt) := by
  obtain ⟨-, i2, i3⟩ := Reachable_inv lib src s h
  obtain ⟨s1, s2⟩ := Reachable_shape lib src s h
  have hall : ∀ os ∈ (key_g lib s).gloffsetscale, os = os_default lib s := by
    intro os hos
    rcases i3 with i3 | ⟨i3, i4⟩
    · rw [key_g_gloffsetscale] at hos
      obtain ⟨j, hj⟩ := List.mem_iff_getElem?.mp hos
      have hlt : j < s.gloffsetscale.length := by
        by_contra hge
        have hlen := foldl_set_length (os_default lib s) (List.range s.images.length)
          s.gloffsetscale
        rw [List.getElem?_eq_none_iff.mpr (by omega)] at hj
        exact Option.noConfusion hj
      have hv := foldl_set_range (os_default lib s) s.images.length s.gloffsetscale
        (by omega) j (by omega)
      rw [hv] at hj
      exact (Option.some.inj hj).symm
    · rw [key_g_nil lib s i3] at hos
      rw [i4 os hos]
      simp [os_default, os_default_from, i3]
  refine ⟨(key_g_length lib s).trans i2, hall, os_default_unfocused lib s, ?_⟩
  intro i hi hf hfirst
  have hn : s.images.length = src.Streams.length := by
    rcases i3 with i3 | ⟨i3, -⟩
    · exact i3
    · rw [i3] at hi
      exact absurd hi (Nat.not_lt_zero i)
  have hd := os_default_first lib s _ i hi hf hfirst
    (offsetScaleOf_eq lib s i (s.images[i]) (s.handlers[i]) (s.glfmt[i])
      (List.getElem?_eq_getElem hi) (List.getElem?_eq_getElem (by omega))
      (List.getElem?_eq_getElem (by omega)))
  refine ⟨s.images[i], s.handlers[i], s.glfmt[i], List.getElem?_eq_getElem hi,
    List.getElem?_eq_getElem (by omega), List.getElem?_eq_getElem (by omega), hd, ?_⟩
  intro os hos
  rw [hall os hos, hd]

theorem key_g_uniform_witness :
    (Reachable sampleLib (sampleSource 2 none) sampleRun ∧ 1 < sampleRun.images.length ∧
      HasFocus sampleRun 1 = true ∧ ∀ j < 1, HasFocus sampleRun j = false) ∧
    ∃ img ivh fmt, sampleRun.images[1]? = some img ∧ sampleRun.handlers[1]? = some ivh ∧
      sampleRun.glfmt[1]? = some fmt ∧
      os_default sampleLib sampleRun = sampleLib.GetOffsetScale img (froi sampleLib ivh) fmt ∧
      ∀ os ∈ (key_g sampleLib sampleRun).gloffsetscale,
        os = sampleLib.GetOffsetScale img (froi sampleLib ivh) fmt :=
  ⟨⟨⟨_, _, _, rfl⟩, by decide, by decide, by decide⟩,
   (key_g_uniform sampleLib (sampleSource 2 none) sampleRun ⟨_, _, _, rfl⟩).2.2.2 1
     (by decide) (by decide) (by decide)⟩

/-- C9: two states that differ only in the shown flags of their views make the
same pull decision and end a loop iteration with the same frame counter, pause
limit and images; a digit key changes neither frame counter, pause limit nor
images, leaves every other stream's shown flag alone and negates that of its own
stream; the render step draws exactly the shown streams, so a hidden one is skipped. -/
theorem visibility_independent (lib : Lib) (s : Viewer) (c2 : List View) (tk : Tick)
    (hdiff : c2.map View.HasFocus = s.container.map View.HasFocus) :
    ((grabStep tk.grab { s with container := c2 }).calls = (grabStep tk.grab s).calls ∧
      (grabStep tk.grab { s with container := c2 }).images = (grabStep tk.grab s).images ∧
      (iteration lib { s with container := c2 } tk).frame = (iteration lib s tk).frame ∧
      (iteration lib { s with container := c2 } tk).end_frame =
        (iteration lib s tk).end_frame ∧
      (iteration lib { s with container := c2 } tk).images = (iteration lib s tk).images) ∧
    (∀ c ∈ show_hide_keys,
      (keyPress lib c s).frame = s.frame ∧ (keyPress lib c s).end_frame = s.end_frame ∧
      (keyPress lib c s).images = s.images ∧
      (∀ j, j ≠ show_hide_keys.indexOf c → IsShown (keyPress lib c s) j = IsShown s j) ∧
      (show_hide_keys.indexOf c < s.container.length →
        IsShown (keyPress lib c s) (show_hide_keys.indexOf c) =
          !IsShown s (show_hide_keys.indexOf c))) ∧
    ((renderStep s).calls = s.calls ++ (rendered s).map Call.Render ∧
      (∀ i, IsShown s i = false → i ∉ rendered s) ∧
      (∀ i, i < s.images.length → IsShown s i = true → i ∈ rendered s)) := by
  have hlen : c2.length = s.container.length := by
    have := congrArg List.length hdiff
    simpa using this
  have hcore : core { s with container := c2 } = core s := by
    simp [core, hlen]
  refine ⟨⟨?_, ?_, ?_, ?_, ?_⟩, ?_, rfl, ?_, ?_⟩
  · unfold grabStep
    split
    · cases tk.grab <;> rfl
    · rfl
  · have := grabStep_core tk.grab _ _ hcore
    simp only [core, Prod.mk.injEq] at this
    exact this.2.2.2.1
  · have := iteration_core lib tk _ _ hcore
    simp only [core, Prod.mk.injEq] at this
    exact this.1
  · have := iteration_core lib tk _ _ hcore
    simp only [core, Prod.mk.injEq] at this
    exact this.2.1
  · have := iteration_core lib tk _ _ hcore
    simp only [core, Prod.mk.injEq] at this
    exact this.2.2.2.1
  · intro c hc
    rw [keyPress_digit lib c s hc]
    by_cases h : show_hide_keys.indexOf c < s.container.length
    · rw [if_pos h]
      have hk := key_show_core (show_hide_keys.indexOf c) s
      simp only [core, Prod.mk.injEq] at hk
      exact ⟨hk.1, hk.2.1, hk.2.2.2.1, fun j hj => key_show_other _ j s hj,
        fun hv => key_show_self _ s hv⟩
    · rw [if_neg h]
      exact ⟨rfl, rfl, rfl, fun _ _ => rfl, fun hv => absurd hv h⟩
  · intro i hi
    simp [rendered, hi]
  · intro i hi hs
    simp [rendered, hi, hs]

theorem visibility_independent_witness :
    ([⟨false, false⟩, ⟨true, true⟩].map View.HasFocus =
        sampleRun.container.map View.HasFocus) ∧
    (grabStep (some sampleFrameSet)
        { sampleRun with container := [⟨false, false⟩, ⟨true, true⟩] }).calls =
      (grabStep (some sampleFrameSet) sampleRun).calls ∧
    (∀ i, IsShown { sampleRun with container := [⟨false, false⟩, ⟨true, true⟩] } i = false →
      i ∉ rendered { sampleRun with container := [⟨false, false⟩, ⟨true, true⟩] }) :=
  ⟨by decide,
   (visibility_independent sampleLib sampleRun [⟨false, false⟩, ⟨true, true⟩]
      ⟨some sampleFrameSet, []⟩ (by decide)).1.1,
   (visibility_independent sampleLib
      { sampleRun with container := [⟨false, false⟩, ⟨true, true⟩] }
      [⟨false, false⟩, ⟨true, true⟩] ⟨some sampleFrameSet, []⟩ rfl).2.2.2.1⟩

end Pangolin
